import Mathlib

/-!
Shallow embedding of the nation-scoped CRUD resource layer of the
War Thunder API server (`src/server.js`, `src/unnamed/part_001`).

JSON/JS runtime values that the handlers inspect are modelled by `JSValue`
(numbers as rationals: the handlers only compare numbers, never do float
arithmetic, so the exact rational value of each literal is faithful).
JS objects are association lists with unique keys (as produced by
`JSON.parse`); `dataCache.vehicles[category]` is an association list from
nation code to the ordered list of item records.  The simulated disk write
(`saveJSON`, which returns a boolean) is passed to each mutating handler
as a `saveOk : Bool` parameter.
-/

namespace WTApi

/-- JS runtime values occurring in the handlers.  `undef` is JavaScript
`undefined` (the result of reading a missing property); `nan` is the
number `NaN`, kept separate because `NaN` is never strictly equal to
anything, itself included. -/
inductive JSValue : Type where
  | str : String → JSValue
  | num : ℚ → JSValue
  | bool : Bool → JSValue
  | null : JSValue
  | undef : JSValue
  | nan : JSValue
deriving DecidableEq

/-- A JS object: association list of (key, value), keys unique. -/
def Obj : Type := List (String × JSValue)

instance : DecidableEq Obj := by unfold Obj; infer_instance

/-- Reading a property: `o[k]`, `none` when the key is absent. -/
def getF (o : Obj) (k : String) : Option JSValue :=
  match o with
  | [] => none
  | (k', v) :: rest => if k' = k then some v else getF rest k

/-- Reading a property as a JS value (a missing key reads as `undefined`). -/
def toVal (v : Option JSValue) : JSValue := v.getD JSValue.undef

/-- Property assignment `o[k] = v`: an existing key keeps its position,
a new key is appended, as in JS objects. -/
def setF (o : Obj) (k : String) (v : JSValue) : Obj :=
  match o with
  | [] => [(k, v)]
  | (k', v') :: rest => if k' = k then (k, v) :: rest else (k', v') :: setF rest k v

/-- Object spread `{...a, ...b}`: b's properties assigned over a in order. -/
def mergeObj (a b : Obj) : Obj :=
  b.foldl (fun acc kv => setF acc kv.1 kv.2) a

/-- JS strict equality `===` on the modelled values.  `NaN === x` is always
false; `undefined === undefined` is true. -/
def strictEq : JSValue → JSValue → Bool
  | .str a, .str b => a = b
  | .num a, .num b => a = b
  | .bool a, .bool b => a = b
  | .null, .null => true
  | .undef, .undef => true
  | _, _ => false

/-- `===` between two property reads (missing properties read `undefined`). -/
def strictEqF (a b : Option JSValue) : Bool :=
  strictEq (toVal a) (toVal b)

/-- JS truthiness of a value (`!v` is `!(jsTruthy v)`). -/
def jsTruthy : JSValue → Bool
  | .str s => s ≠ ""
  | .num q => q ≠ 0
  | .bool b => b
  | .null => false
  | .undef => false
  | .nan => false

/-- A category's collection: nation code → ordered list of item records,
mirroring one `dataCache.vehicles[category]` object. -/
def NationMap : Type := List (String × List Obj)

instance : DecidableEq NationMap := by unfold NationMap; infer_instance

/-- `collection[nation]` lookup. -/
def lookupN (col : NationMap) (nation : String) : Option (List Obj) :=
  match col with
  | [] => none
  | (k, v) :: rest => if k = nation then some v else lookupN rest nation

/-- `collection[nation] = items`: replace in place or append the key. -/
def setN (col : NationMap) (nation : String) (items : List Obj) : NationMap :=
  match col with
  | [] => [(nation, items)]
  | (k, v) :: rest =>
      if k = nation then (nation, items) :: rest else (k, v) :: setN rest nation items

/-- `Object.keys(collection)`. -/
def keysOf (col : NationMap) : List String := col.map Prod.fst

/-- The five vehicle categories the factory is mounted for. -/
inductive Category : Type where
  | aircraft | helicopters | tanks | bluewater | coastal
deriving DecidableEq

/-- `idFieldForCategory`: the human-readable unique id field per category. -/
def idFieldForCategory : Category → String
  | .aircraft => "aircraftid"
  | .helicopters => "helicopterid"
  | .tanks => "tankid"
  | .bluewater => "shipid"
  | .coastal => "shipid"

/- ============ JS numeric-string builtins used by the handlers ============ -/

/-- Characters the ECMAScript `StrWhiteSpace` production accepts (the ASCII
ones plus NBSP; enough for URL path segments and query strings). -/
def isJsWS (c : Char) : Bool :=
  c = ' ' ∨ c = '\t' ∨ c = '\n' ∨ c = '\x0b' ∨ c = '\x0c' ∨ c = '\r' ∨ c = ' '

/-- `String.prototype.trim()` over the modelled whitespace set. -/
def jsTrim (s : String) : String :=
  String.mk (((s.toList.dropWhile isJsWS).reverse.dropWhile isJsWS).reverse)

def isDecDigit (c : Char) : Bool := '0' ≤ c ∧ c ≤ '9'

def isHexDigit (c : Char) : Bool :=
  ('0' ≤ c ∧ c ≤ '9') ∨ ('a' ≤ c ∧ c ≤ 'f') ∨ ('A' ≤ c ∧ c ≤ 'F')

def isOctDigit (c : Char) : Bool := '0' ≤ c ∧ c ≤ '7'

def isBinDigit (c : Char) : Bool := c = '0' ∨ c = '1'

/-- Recognizer for the exponent part `(e|E) sign? digits`. -/
def expPartOk (l : List Char) : Bool :=
  match l with
  | c :: rest =>
      if c = 'e' ∨ c = 'E' then
        let rest2 := match rest with
          | s :: r2 => if s = '+' ∨ s = '-' then r2 else rest
          | [] => rest
        rest2 ≠ [] ∧ rest2.all isDecDigit
      else false
  | [] => false

/-- Recognizer for an unsigned decimal literal
`digits ('.' digits?)? exp?  |  '.' digits exp?`. -/
def unsignedDecOk (l : List Char) : Bool :=
  let ds := l.takeWhile isDecDigit
  let r := l.dropWhile isDecDigit
  if ds ≠ [] then
    match r with
    | [] => true
    | '.' :: r2 =>
        let r3 := r2.dropWhile isDecDigit
        r3 = [] ∨ expPartOk r3
    | _ => expPartOk r
  else
    match l with
    | '.' :: r2 =>
        let ds2 := r2.takeWhile isDecDigit
        let r3 := r2.dropWhile isDecDigit
        ds2 ≠ [] ∧ (r3 = [] ∨ expPartOk r3)
    | _ => false

/-- Recognizer for `sign? (Infinity | decimal literal)`. -/
def signedDecOk (l : List Char) : Bool :=
  let body := match l with
    | c :: rest => if c = '+' ∨ c = '-' then rest else l
    | [] => l
  body = "Infinity".toList ∨ unsignedDecOk body

/-- True iff JS `Number(s)` is not `NaN`, i.e. `!isNaN(s)` for a string
argument: optional whitespace around an optional `StrNumericLiteral`
(decimal with exponent, `Infinity`, or a `0x`/`0o`/`0b` radix literal);
the empty/blank string converts to `0` and so counts as numeric. -/
def jsIsNumeric (s : String) : Bool :=
  let t := ((s.toList.dropWhile isJsWS).reverse.dropWhile isJsWS).reverse
  match t with
  | [] => true
  | '0' :: c :: rest =>
      if c = 'x' ∨ c = 'X' then rest ≠ [] ∧ rest.all isHexDigit
      else if c = 'o' ∨ c = 'O' then rest ≠ [] ∧ rest.all isOctDigit
      else if c = 'b' ∨ c = 'B' then rest ≠ [] ∧ rest.all isBinDigit
      else signedDecOk t
  | _ => signedDecOk t

/-- Digit-list to number in a given radix. -/
def digitsVal (radix : Nat) (l : List Char) : Nat :=
  l.foldl (fun acc c =>
    acc * radix +
      (if '0' ≤ c ∧ c ≤ '9' then c.toNat - '0'.toNat
       else if 'a' ≤ c ∧ c ≤ 'f' then c.toNat - 'a'.toNat + 10
       else c.toNat - 'A'.toNat + 10)) 0

/-- JS `parseInt(s)` with no radix argument: skip leading whitespace, read
an optional sign, auto-detect a `0x`/`0X` prefix (radix 16, else 10), then
take the longest prefix of radix digits; no digits means `NaN` (`none`). -/
def jsParseInt (s : String) : Option Int :=
  let t := s.toList.dropWhile isJsWS
  let (sgn, t2) : Int × List Char :=
    match t with
    | '+' :: r => (1, r)
    | '-' :: r => (-1, r)
    | _ => (1, t)
  match t2 with
  | '0' :: c :: rest =>
      if c = 'x' ∨ c = 'X' then
        let ds := rest.takeWhile isHexDigit
        if ds = [] then none else some (sgn * (digitsVal 16 ds : Int))
      else
        let ds := t2.takeWhile isDecDigit
        some (sgn * (digitsVal 10 ds : Int))
  | _ =>
      let ds := t2.takeWhile isDecDigit
      if ds = [] then none else some (sgn * (digitsVal 10 ds : Int))

/- ==================== identifier resolution ==================== -/

/-- The candidate value compared against a record's numeric `id`:
`isNumeric ? parseInt(identifier) : identifier` where
`isNumeric = !isNaN(identifier)`.  When `parseInt` yields `NaN` (e.g. for
`".5"` or `"Infinity"`, which are `isNumeric` but have no digit prefix)
the candidate equals nothing under `===`. -/
def searchIdVal (ident : String) : JSValue :=
  if jsIsNumeric ident then
    match jsParseInt ident with
    | some n => .num (n : ℚ)
    | none => .nan
  else .str ident

/-- The find predicate `i => i[idField] === identifier || i.id === searchId`
shared by the get-one, update and delete handlers. -/
def resolvePred (c : Category) (ident : String) (i : Obj) : Bool :=
  strictEqF (getF i (idFieldForCategory c)) (some (.str ident)) ||
    strictEqF (getF i "id") (some (searchIdVal ident))

/-- `nationItems.find(i => i[idField] === identifier || i.id === searchId)`. -/
def resolveItem (c : Category) (items : List Obj) (ident : String) : Option Obj :=
  items.find? (resolvePred c ident)

/-- `nationItems.findIndex(...)` with the same predicate (update/delete). -/
def resolveIdx (c : Category) (items : List Obj) (ident : String) : Option Nat :=
  items.findIdx? (resolvePred c ident)

/- ==================== validation ==================== -/

/-- The failure condition of
`!v || typeof v !== 'string' || v.trim() === ''` for one required field. -/
def requiredStringBad (v : JSValue) : Bool :=
  match v with
  | .str s => jsTrim s = ""
  | _ => true

/-- `validateGenericData(category, data, isUpdate)`: collected error
messages.  A `rank`/`br`/`crew` property holding `NaN` passes the JS
checks (`typeof NaN === 'number'` and both range comparisons are false),
which the `.nan` branches mirror. -/
def validateGenericData (c : Category) (data : Obj) (isUpdate : Bool) : List String :=
  let idField := idFieldForCategory c
  let requiredErrs :=
    if isUpdate then []
    else
      (if requiredStringBad (toVal (getF data idField)) then
        [idField ++ " is required and must be a non-empty string"] else []) ++
      (if requiredStringBad (toVal (getF data "name")) then
        ["name is required and must be a non-empty string"] else [])
  let rankErr :=
    match toVal (getF data "rank") with
    | .undef => []
    | .num q => if q < 1 ∨ q > 8 then ["rank must be a number between 1 and 8"] else []
    | .nan => []
    | _ => ["rank must be a number between 1 and 8"]
  let brErr :=
    match toVal (getF data "br") with
    | .undef => []
    | .num q =>
        if q < 1 ∨ q > 15 then ["br (battle rating) must be a number between 1.0 and 15.0"]
        else []
    | .nan => []
    | _ => ["br (battle rating) must be a number between 1.0 and 15.0"]
  let crewErr :=
    match toVal (getF data "crew") with
    | .undef => []
    | .num q => if q < 1 then ["crew must be a positive number"] else []
    | .nan => []
    | _ => ["crew must be a positive number"]
  requiredErrs ++ rankErr ++ brErr ++ crewErr

/- ==================== fresh id computation ==================== -/

/-- The value `i.id || 0` contributes to `Math.max`.  Restriction of the
embedding: a record whose `id` is a truthy non-number (absent from any data
this server writes) would be coerced by `Math.max`'s ToNumber; here it maps
to 0, and the id-generation theorems restrict to numeric ids. -/
def idOrZero (i : Obj) : ℚ :=
  match toVal (getF i "id") with
  | .num q => q
  | _ => 0

/-- `Math.max(...)` over a list known nonempty at the call site. -/
def maxList (l : List ℚ) : ℚ :=
  match l with
  | [] => 0
  | x :: xs => xs.foldl max x

/-- `getNextIdForCategory` / `getNextAircraftId`: 1 for an absent or empty
nation list, else `Math.max(...items.map(i => i.id || 0)) + 1`. -/
def getNextId (col : NationMap) (nation : String) : ℚ :=
  match lookupN col nation with
  | some (x :: xs) => maxList ((x :: xs).map idOrZero) + 1
  | _ => 1

/- ==================== handlers ==================== -/

/-- Result of the list-by-nation handler. -/
structure ByNationR : Type where
  status : Nat
  count : Option Nat
  items : Option (List Obj)
  availableNations : Option (List String)
deriving DecidableEq

/-- `GET basePath/:nation` (the category is loaded): 404 with
`available_nations: Object.keys(collection)` when `collection[nation]` is
absent, else 200 with the nation's items (an empty list is truthy in JS and
is served as a valid empty result). -/
def genericGetByNation (col : NationMap) (nation : String) : ByNationR :=
  match lookupN col nation with
  | none => ⟨404, none, none, some (keysOf col)⟩
  | some items => ⟨200, some items.length, some items, none⟩

/-- `GET basePath/:nation/:identifier`: status and the found record. -/
def genericGetOne (c : Category) (col : NationMap) (nation ident : String) :
    Nat × Option Obj :=
  match lookupN col nation with
  | none => (404, none)
  | some items =>
      match resolveItem c items ident with
      | none => (404, none)
      | some i => (200, some i)

/-- Result of a mutating handler: HTTP status, response record (for
201/200), and the in-memory collection after the call. -/
structure MutR : Type where
  status : Nat
  body : Option Obj
  details : List String
  state : NationMap
deriving DecidableEq

/-- `POST basePath/:nation` from the route factory: auto-initialize the
nation key, check the two required fields, check for a duplicate id-field
value, build `{id: next, nation, ...req.body}`, push, save; on save
failure pop the appended record and answer 500. -/
def genericPost (c : Category) (col : NationMap) (nation : String) (body : Obj)
    (saveOk : Bool) : MutR :=
  let idField := idFieldForCategory c
  let col1 := match lookupN col nation with
    | some _ => col
    | none => setN col nation []
  let items := (lookupN col1 nation).getD []
  let incomingId := toVal (getF body idField)
  let nameV := toVal (getF body "name")
  if requiredStringBad incomingId ∨ requiredStringBad nameV then
    ⟨400, none, [], col1⟩
  else if items.any (fun i => strictEqF (getF i idField) (some incomingId)) then
    ⟨409, none, [], col1⟩
  else
    let newItem := mergeObj [("id", .num (getNextId col1 nation)), ("nation", .str nation)] body
    if saveOk then ⟨201, some newItem, [], setN col1 nation (items ++ [newItem])⟩
    else ⟨500, none, [], setN col1 nation items⟩

/-- `POST /api/vehicles/aviation/aircraft/:nation` from `src/server.js`:
same checks (split differently: the falsy test precedes the `.trim()`
calls, and `.trim()` on a truthy non-string raises a TypeError that the
final error middleware turns into a 500), base object
`{id, aircraftid, name, nation, ...req.body}` — and NO rollback of the
pushed record when the save fails. -/
def serverPostAircraft (col : NationMap) (nation : String) (body : Obj)
    (saveOk : Bool) : MutR :=
  let col1 := match lookupN col nation with
    | some _ => col
    | none => setN col nation []
  let items := (lookupN col1 nation).getD []
  let aV := toVal (getF body "aircraftid")
  let nV := toVal (getF body "name")
  if ¬ jsTruthy aV ∨ ¬ jsTruthy nV then ⟨400, none, [], col1⟩
  else
    match aV, nV with
    | .str a, .str n =>
        if jsTrim a = "" ∨ jsTrim n = "" then ⟨400, none, [], col1⟩
        else if items.any (fun i => strictEqF (getF i "aircraftid") (some (.str a))) then
          ⟨409, none, [], col1⟩
        else
          let newItem := mergeObj
            [("id", .num (getNextId col1 nation)), ("aircraftid", .str a),
             ("name", .str n), ("nation", .str nation)] body
          let col2 := setN col1 nation (items ++ [newItem])
          if saveOk then ⟨201, some newItem, [], col2⟩
          else ⟨500, none, [], col2⟩
    | _, _ => ⟨500, none, [], col1⟩

/-- The merged record a PATCH stores:
`{...orig, ...body, id: orig.id, nation: orig.nation, [idField]: orig[idField]}`. -/
def patchMerge (c : Category) (orig body : Obj) : Obj :=
  setF (setF (setF (mergeObj orig body)
      "id" (toVal (getF orig "id")))
      "nation" (toVal (getF orig "nation")))
      (idFieldForCategory c) (toVal (getF orig (idFieldForCategory c)))

/-- `PATCH basePath/:nation/:identifier`: 404 on missing nation, validate
the body (update mode), resolve the target, merge with the three key
fields restored, replace in place, save; on save failure restore the
original record and answer 500. -/
def genericPatch (c : Category) (col : NationMap) (nation ident : String)
    (body : Obj) (saveOk : Bool) : MutR :=
  match lookupN col nation with
  | none => ⟨404, none, [], col⟩
  | some items =>
      let errs := validateGenericData c body true
      if errs ≠ [] then ⟨400, none, errs, col⟩
      else
        match resolveIdx c items ident with
        | none => ⟨404, none, [], col⟩
        | some idx =>
            let orig := items.getD idx []
            let updated := patchMerge c orig body
            if saveOk then ⟨200, some updated, [], setN col nation (items.set idx updated)⟩
            else ⟨500, none, [], setN col nation ((items.set idx updated).set idx orig)⟩

/-- `DELETE basePath/:nation/:identifier`: resolve, `splice(index, 1)`,
save; on save failure `splice(index, 0, deleted)` re-inserts the record at
its original index, and the handler answers 500; success answers 204. -/
def genericDelete (c : Category) (col : NationMap) (nation ident : String)
    (saveOk : Bool) : MutR :=
  match lookupN col nation with
  | none => ⟨404, none, [], col⟩
  | some items =>
      match resolveIdx c items ident with
      | none => ⟨404, none, [], col⟩
      | some idx =>
          let deleted := items.getD idx []
          let rest := items.eraseIdx idx
          if saveOk then ⟨204, none, [], setN col nation rest⟩
          else ⟨500, none, [], setN col nation (rest.take idx ++ deleted :: rest.drop idx)⟩

/- ==================== flattened list + pagination ==================== -/

/-- `s.includes(sub)` on strings. -/
def strIncludes (s sub : String) : Bool :=
  (List.range (s.toList.length + 1)).any
    (fun k => (s.toList.drop k).take sub.toList.length = sub.toList)

/-- One disjunct of the search filter:
`i[field] && i[field].toLowerCase().includes(query)` (a truthy non-string
would raise in JS; such records are outside the embedding and no-match
here).  `query` is already lower-cased. -/
def fieldMatches (i : Obj) (field query : String) : Bool :=
  match toVal (getF i field) with
  | .str s => s ≠ "" ∧ strIncludes s.toLower query
  | _ => false

/-- The `q` filter over name, id-field and nation. -/
def matchesQuery (c : Category) (qs : String) (i : Obj) : Bool :=
  let query := qs.toLower
  fieldMatches i "name" query ||
    fieldMatches i (idFieldForCategory c) query ||
    fieldMatches i "nation" query

/-- `Object.values(collection).flat()` then the truthy-`q` filter. -/
def filteredItems (c : Category) (col : NationMap) (q : Option String) : List Obj :=
  let all := col.foldr (fun kv acc => kv.2 ++ acc) []
  match q with
  | none => all
  | some qs => if qs = "" then all else all.filter (matchesQuery c qs)

/-- `parseInt(x) || d` where `x : Option String` is the raw query value
(`parseInt(undefined)` is `NaN`, and both `NaN` and `0`/`-0` are falsy). -/
def jsParseIntOr (q : Option String) (d : Int) : Int :=
  match q with
  | none => d
  | some s =>
      match jsParseInt s with
      | none => d
      | some n => if n = 0 then d else n

/-- `Math.max(1, parseInt(req.query.page) || 1)`. -/
def effPage (q : Option String) : Int := max 1 (jsParseIntOr q 1)

/-- `Math.min(100, Math.max(1, parseInt(req.query.limit) || 50))`. -/
def effLimit (q : Option String) : Int := min 100 (max 1 (jsParseIntOr q 50))

/-- `allItems.slice(startIndex, startIndex + limit)` with
`startIndex = (page - 1) * limit` (both arguments nonnegative here since
page and limit are at least 1). -/
def pageSlice (items : List Obj) (page limit : Int) : List Obj :=
  (items.drop ((page - 1) * limit).toNat).take limit.toNat

/-- Response of the flattened list handler. -/
structure ListR : Type where
  total : Nat
  page : Int
  limit : Int
  totalPages : Nat
  items : List Obj
deriving DecidableEq

/-- `GET basePath`: search filter, pagination, envelope. -/
def listCategory (c : Category) (col : NationMap) (q pq lq : Option String) : ListR :=
  let filtered := filteredItems c col q
  let page := effPage pq
  let limit := effLimit lq
  ⟨filtered.length, page, limit,
   (filtered.length + limit.toNat - 1) / limit.toNat,
   pageSlice filtered page limit⟩

/- ==================== helper lemmas ==================== -/

theorem getF_setF (o : Obj) (k k' : String) (v : JSValue) :
    getF (setF o k v) k' = if k = k' then some v else getF o k' := by
  induction o with
  | nil => simp [setF, getF]
  | cons hd tl ih =>
      obtain ⟨k0, v0⟩ := hd
      by_cases h0 : k0 = k
      · subst h0
        by_cases h1 : k0 = k'
        · subst h1; simp [setF, getF]
        · simp [setF, getF, h1]
      · by_cases h1 : k0 = k'
        · subst h1
          have : ¬ k = k0 := fun h => h0 h.symm
          simp [setF, getF, h0, this]
        · simp [setF, getF, h0, h1, ih]

theorem getF_mergeObj_not_key (b : Obj) (a : Obj) (k : String)
    (h : k ∉ b.map Prod.fst) : getF (mergeObj a b) k = getF a k := by
  induction b generalizing a with
  | nil => rfl
  | cons hd tl ih =>
      obtain ⟨k0, v0⟩ := hd
      simp only [List.map_cons, List.mem_cons] at h
      push_neg at h
      have step : mergeObj a ((k0, v0) :: tl) = mergeObj (setF a k0 v0) tl := rfl
      rw [step, ih _ h.2, getF_setF, if_neg (fun hh => h.1 hh.symm)]

theorem getF_mergeObj (b : Obj) (a : Obj) (k : String)
    (h : (b.map Prod.fst).Nodup) :
    getF (mergeObj a b) k =
      match getF b k with
      | some v => some v
      | none => getF a k := by
  induction b generalizing a with
  | nil => rfl
  | cons hd tl ih =>
      obtain ⟨k0, v0⟩ := hd
      simp only [List.map_cons, List.nodup_cons] at h
      have step : mergeObj a ((k0, v0) :: tl) = mergeObj (setF a k0 v0) tl := rfl
      by_cases h0 : k0 = k
      · subst h0
        rw [step, getF_mergeObj_not_key tl _ _ (by simpa using h.1)]
        simp [getF, getF_setF]
      · rw [step, ih _ h.2]
        cases hgt : getF tl k <;> simp [getF, hgt, getF_setF, h0]

theorem lookupN_setN (col : NationMap) (n n' : String) (v : List Obj) :
    lookupN (setN col n v) n' = if n = n' then some v else lookupN col n' := by
  induction col with
  | nil => simp [setN, lookupN]
  | cons hd tl ih =>
      obtain ⟨k0, v0⟩ := hd
      by_cases h0 : k0 = n
      · subst h0
        by_cases h1 : k0 = n'
        · subst h1; simp [setN, lookupN]
        · simp [setN, lookupN, h1]
      · by_cases h1 : k0 = n'
        · subst h1
          have : ¬ n = k0 := fun h => h0 h.symm
          simp [setN, lookupN, h0, this]
        · simp [setN, lookupN, h0, h1, ih]

theorem setN_setN (col : NationMap) (n : String) (v w : List Obj) :
    setN (setN col n v) n w = setN col n w := by
  induction col with
  | nil => simp [setN]
  | cons hd tl ih =>
      obtain ⟨k0, v0⟩ := hd
      by_cases h0 : k0 = n
      · subst h0; simp [setN]
      · simp [setN, h0, ih]

theorem strictEq_iff (a b : JSValue) : strictEq a b = true ↔ a = b ∧ a ≠ .nan := by
  cases a <;> cases b <;> simp [strictEq]

theorem le_foldl_max (xs : List ℚ) (a : ℚ) : a ≤ xs.foldl max a := by
  induction xs generalizing a with
  | nil => exact le_refl a
  | cons z zs ih => exact le_trans (le_max_left a z) (ih (max a z))

theorem mem_le_foldl_max {xs : List ℚ} {x : ℚ} (a : ℚ) (h : x ∈ xs) :
    x ≤ xs.foldl max a := by
  induction xs generalizing a with
  | nil => cases h
  | cons z zs ih =>
      rcases List.mem_cons.mp h with h1 | h1
      · subst h1
        exact le_trans (le_max_right a x) (le_foldl_max zs (max a x))
      · exact ih (max a z) h1

theorem foldl_max_mem (xs : List ℚ) (a : ℚ) :
    xs.foldl max a = a ∨ xs.foldl max a ∈ xs := by
  induction xs generalizing a with
  | nil => exact Or.inl rfl
  | cons z zs ih =>
      rcases ih (max a z) with h1 | h1
      · rcases max_choice a z with h2 | h2 <;> rw [List.foldl_cons, h1, h2]
        · exact Or.inl rfl
        · exact Or.inr (List.mem_cons_self _ _)
      · exact Or.inr (List.mem_cons.mpr (Or.inr h1))

theorem maxList_le_of_mem {l : List ℚ} {x : ℚ} (h : x ∈ l) : x ≤ maxList l := by
  match l with
  | y :: ys =>
      simp only [maxList]
      rcases List.mem_cons.mp h with h1 | h1
      · subst h1; exact le_foldl_max ys x
      · exact mem_le_foldl_max y h1

theorem maxList_mem {l : List ℚ} (h : l ≠ []) : maxList l ∈ l := by
  match l with
  | [] => exact absurd rfl h
  | y :: ys =>
      simp only [maxList]
      rcases foldl_max_mem ys y with h1 | h1
      · rw [h1]; exact List.mem_cons_self _ _
      · exact List.mem_cons.mpr (Or.inr h1)

/- ==================== sample data ==================== -/

/-- A stored aircraft record: `aircraftid "a"`, numeric id 3. -/
def obj3 : Obj :=
  [("aircraftid", .str "a"), ("id", .num 3), ("nation", .str "usa"), ("name", .str "A3")]

/-- A one-nation aircraft collection. -/
def colU : NationMap := [("usa", [obj3])]

/-- A valid create body. -/
def okBody : Obj := [("aircraftid", .str "x"), ("name", .str "y")]

/-- A create body that also sends `id` and `nation`. -/
def overrideBody : Obj :=
  [("aircraftid", .str "x"), ("name", .str "y"), ("id", .num 999), ("nation", .str "zz")]

/-- A create body with an out-of-range `rank`. -/
def rankBody : Obj := [("aircraftid", .str "x"), ("name", .str "y"), ("rank", .num 99)]

/-- An update body violating two range rules at once. -/
def rangeBody : Obj := [("rank", .num 99), ("crew", .num 0)]

/- ==================== spec-side definitions ==================== -/

/-- Modelled from the spec: "determine if the entire string parses as a
base-10 integer (no partial matches — the full token must be numeric)". -/
def specFullBase10 (s : String) : Option Int :=
  let l := s.toList
  let (sgn, t) : Int × List Char :=
    match l with
    | '+' :: r => (1, r)
    | '-' :: r => (-1, r)
    | _ => (1, l)
  if t ≠ [] ∧ t.all isDecDigit then some (sgn * (digitsVal 10 t : Int)) else none

/-- Modelled from the spec: resolution as claim C3 words it — a record is
returned iff its id-field equals the raw string or (when the whole string
is a base-10 integer) its numeric `id` equals the parsed integer, first
match in list order winning. -/
def specResolveItem (c : Category) (items : List Obj) (ident : String) : Option Obj :=
  items.find? (fun i =>
    strictEqF (getF i (idFieldForCategory c)) (some (.str ident)) ||
      (match specFullBase10 ident with
       | some n => strictEqF (getF i "id") (some (.num (n : ℚ)))
       | none => false))

/- ==================== claim theorems ==================== -/

/-- C1: rollback on persistence failure for create, update and delete.
The factory handlers (`src/unnamed/part_001`) do restore the pre-call
state, but the aircraft-specific POST in `src/server.js` sends 500 and
leaves the appended record in memory: at a concrete one-record state a
failed create ends with two records in the nation list, while the generic
create/update/delete all end with the state unchanged. -/
theorem c1_server_create_skips_rollback :
    (serverPostAircraft colU "usa" okBody false).status = 500 ∧
    (serverPostAircraft colU "usa" okBody false).state ≠ colU ∧
    ((lookupN (serverPostAircraft colU "usa" okBody false).state "usa").getD []).length = 2 ∧
    genericPost .aircraft colU "usa" okBody false = ⟨500, none, [], colU⟩ ∧
    genericPatch .aircraft colU "usa" "a" [("br", .num 2)] false = ⟨500, none, [], colU⟩ ∧
    genericDelete .aircraft colU "usa" "3" false = ⟨500, none, [], colU⟩ := by
  decide

/-- C2: the claim says the stored record's `nation` and `id` come from the
server regardless of the body; but both POST handlers spread `req.body`
last, so a body carrying `id` or `nation` overrides the server-assigned
values: creating into `usa` (fresh id 1) with body values `id = 999`,
`nation = "zz"` stores and returns those body values. -/
theorem c2_create_body_overrides_server_fields :
    (genericPost .aircraft [("usa", [])] "usa" overrideBody true).status = 201 ∧
    ((genericPost .aircraft [("usa", [])] "usa" overrideBody true).body.map
        (fun o => (getF o "id", getF o "nation"))) =
      some (some (.num 999), some (.str "zz")) ∧
    getNextId [("usa", [])] "usa" = 1 ∧
    ((serverPostAircraft [("usa", [])] "usa" overrideBody true).body.map
        (fun o => (getF o "id", getF o "nation"))) =
      some (some (.num 999), some (.str "zz")) := by
  decide

/-- C6: the claim says every create or update with an out-of-range optional
field is rejected with 400; updates are (with all violated rules listed),
but both create handlers skip the optional-field checks entirely: a create
body with `rank = 99` is accepted with 201 even though the repository's own
`validateGenericData` flags it. -/
theorem c6_create_skips_optional_validation :
    (genericPost .aircraft colU "usa" rankBody true).status = 201 ∧
    (serverPostAircraft colU "usa" rankBody true).status = 201 ∧
    validateGenericData .aircraft rankBody false =
      ["rank must be a number between 1 and 8"] ∧
    genericPatch .aircraft colU "usa" "a" rangeBody true =
      ⟨400, none,
        ["rank must be a number between 1 and 8", "crew must be a positive number"],
        colU⟩ := by
  decide

/-- C3 counterexample: the identifier `"3.5"` is not a full base-10
integer, and `obj3`'s id-field is `"a"` ≠ `"3.5"`, so under the claim the
lookup must miss; the code takes the numeric branch (`!isNaN("3.5")`),
compares `parseInt("3.5") = 3` against `id` and returns the record. -/
theorem c3_counterexample :
    resolveItem .aircraft [obj3] "3.5" = some obj3 ∧
    specResolveItem .aircraft [obj3] "3.5" = none ∧
    specFullBase10 "3.5" = none ∧
    getF obj3 "aircraftid" ≠ some (.str "3.5") ∧
    genericGetOne .aircraft colU "usa" "3.5" = (200, some obj3) := by
  decide

/-- Declarative form of the resolver's match condition: the id-field value
strictly equals the raw identifier, or the `searchId` candidate is a real
value (not `NaN`) and the record's `id` strictly equals it. -/
def matchesIdent (c : Category) (ident : String) (i : Obj) : Prop :=
  toVal (getF i (idFieldForCategory c)) = .str ident ∨
    (searchIdVal ident ≠ .nan ∧ toVal (getF i "id") = searchIdVal ident)

instance (c : Category) (ident : String) (i : Obj) :
    Decidable (matchesIdent c ident i) := by
  unfold matchesIdent; infer_instance

theorem toVal_some (v : JSValue) : toVal (some v) = v := rfl

theorem resolvePred_iff (c : Category) (ident : String) (i : Obj) :
    resolvePred c ident i = true ↔ matchesIdent c ident i := by
  unfold resolvePred matchesIdent strictEqF
  rw [Bool.or_eq_true, strictEq_iff, strictEq_iff, toVal_some, toVal_some]
  constructor
  · rintro (⟨h1, _⟩ | ⟨h1, h2⟩)
    · exact Or.inl h1
    · exact Or.inr ⟨h1 ▸ h2, h1⟩
  · rintro (h1 | ⟨h1, h2⟩)
    · refine Or.inl ⟨h1, ?_⟩
      rw [h1]
      intro hc
      exact JSValue.noConfusion hc
    · refine Or.inr ⟨h2, ?_⟩
      rw [h2]
      exact h1

/-- C3 (amended): the numeric surrogate-key branch is taken iff the whole
identifier string converts to a non-NaN number under JS `Number` coercion
(decimals, exponents, `Infinity`, `0x`/`0o`/`0b` literals, surrounding
whitespace included) — not only full base-10 integers; the surrogate
candidate is `parseInt`'s longest-prefix parse (`NaN` matching nothing);
a record is resolved iff its id-field strictly equals the raw string or
its `id` strictly equals that candidate, first match in list order
winning. -/
theorem c3_resolution_first_match (c : Category) (items : List Obj)
    (ident : String) (r : Obj) :
    resolveItem c items ident = some r ↔
      matchesIdent c ident r ∧
        ∃ pre post, items = pre ++ r :: post ∧
          ∀ x ∈ pre, ¬ matchesIdent c ident x := by
  unfold resolveItem
  rw [List.find?_eq_some]
  constructor
  · rintro ⟨hp, pre, post, heq, hall⟩
    refine ⟨(resolvePred_iff c ident r).mp hp, pre, post, heq, ?_⟩
    intro x hx hm
    have h1 := hall x hx
    rw [Bool.not_eq_true'] at h1
    have h2 := (resolvePred_iff c ident x).mpr hm
    rw [h1] at h2
    exact Bool.noConfusion h2
  · rintro ⟨hm, pre, post, heq, hall⟩
    refine ⟨(resolvePred_iff c ident r).mpr hm, pre, post, heq, ?_⟩
    intro x hx
    rw [Bool.not_eq_true']
    cases hb : resolvePred c ident x
    · rfl
    · exact absurd ((resolvePred_iff c ident x).mp hb) (hall x hx)

/-- Concrete instantiation of the amended C3 resolution theorem at the
`"3.5"` lookup. -/
theorem c3_resolution_first_match_witness :
    matchesIdent .aircraft "3.5" obj3 ∧
      ∃ pre post, ([obj3] : List Obj) = pre ++ obj3 :: post ∧
        ∀ x ∈ pre, ¬ matchesIdent .aircraft "3.5" x :=
  (c3_resolution_first_match .aircraft [obj3] "3.5" obj3).mp (by decide)

theorem idField_ne_id (c : Category) : idFieldForCategory c ≠ "id" := by
  cases c <;> decide

theorem idField_ne_nation (c : Category) : idFieldForCategory c ≠ "nation" := by
  cases c <;> decide

theorem patchMerge_getF_id (c : Category) (orig body : Obj) :
    getF (patchMerge c orig body) "id" = some (toVal (getF orig "id")) := by
  unfold patchMerge
  rw [getF_setF, if_neg (idField_ne_id c), getF_setF,
    if_neg (by decide : ("nation" : String) ≠ "id"), getF_setF, if_pos rfl]

theorem patchMerge_getF_nation (c : Category) (orig body : Obj) :
    getF (patchMerge c orig body) "nation" = some (toVal (getF orig "nation")) := by
  unfold patchMerge
  rw [getF_setF, if_neg (idField_ne_nation c), getF_setF, if_pos rfl]

theorem patchMerge_getF_idField (c : Category) (orig body : Obj) :
    getF (patchMerge c orig body) (idFieldForCategory c) =
      some (toVal (getF orig (idFieldForCategory c))) := by
  unfold patchMerge
  rw [getF_setF, if_pos rfl]

theorem patchMerge_getF_other (c : Category) (orig body : Obj) (k : String)
    (hk1 : k ≠ "id") (hk2 : k ≠ "nation") (hk3 : k ≠ idFieldForCategory c)
    (hnodup : (body.map Prod.fst).Nodup) :
    getF (patchMerge c orig body) k =
      match getF body k with
      | some v => some v
      | none => getF orig k := by
  unfold patchMerge
  rw [getF_setF, if_neg (fun h => hk3 h.symm), getF_setF,
    if_neg (fun h => hk2 h.symm), getF_setF, if_neg (fun h => hk1 h.symm),
    getF_mergeObj body orig k hnodup]

/-- C4: an accepted PATCH stores the merge of the body over the existing
record with `id`, `nation` and the category id-field forcibly restored to
their pre-update values, whatever the body contained; every other
submitted field overrides the stored one, and unsubmitted fields are
kept. -/
theorem c4_patch_preserves_key_fields (c : Category) (col : NationMap)
    (nation ident : String) (body : Obj) (items : List Obj) (idx : Nat)
    (hcol : lookupN col nation = some items)
    (hval : validateGenericData c body true = [])
    (hidx : resolveIdx c items ident = some idx)
    (hnodup : (body.map Prod.fst).Nodup) :
    genericPatch c col nation ident body true =
      ⟨200, some (patchMerge c (items.getD idx []) body), [],
        setN col nation (items.set idx (patchMerge c (items.getD idx []) body))⟩ ∧
    getF (patchMerge c (items.getD idx []) body) "id" =
      some (toVal (getF (items.getD idx []) "id")) ∧
    getF (patchMerge c (items.getD idx []) body) "nation" =
      some (toVal (getF (items.getD idx []) "nation")) ∧
    getF (patchMerge c (items.getD idx []) body) (idFieldForCategory c) =
      some (toVal (getF (items.getD idx []) (idFieldForCategory c))) ∧
    ∀ k, k ≠ "id" → k ≠ "nation" → k ≠ idFieldForCategory c →
      getF (patchMerge c (items.getD idx []) body) k =
        match getF body k with
        | some v => some v
        | none => getF (items.getD idx []) k := by
  refine ⟨?_, patchMerge_getF_id c _ body, patchMerge_getF_nation c _ body,
    patchMerge_getF_idField c _ body,
    fun k hk1 hk2 hk3 => patchMerge_getF_other c _ body k hk1 hk2 hk3 hnodup⟩
  simp [genericPatch, hcol, hval, hidx]

/-- Concrete instantiation of the PATCH key-field theorem: updating `obj3`
with a body that tries to overwrite `id` keeps the stored `id` value. -/
theorem c4_patch_preserves_key_fields_witness :
    getF (patchMerge .aircraft (([obj3] : List Obj).getD 0 [])
        [("br", .num 2), ("id", .num 777)]) "id" =
      some (toVal (getF (([obj3] : List Obj).getD 0 []) "id")) :=
  (c4_patch_preserves_key_fields .aircraft colU "usa" "a"
    [("br", .num 2), ("id", .num 777)] [obj3] 0
    (by decide) (by decide) (by decide) (by decide)).2.1

theorem strictEq_self (v : JSValue) (h : v ≠ .nan) : strictEq v v = true := by
  cases v <;> simp [strictEq] at h ⊢

theorem requiredStringBad_ne_nan {v : JSValue} (h : requiredStringBad v = false) :
    v ≠ .nan := by
  intro hv
  rw [hv] at h
  simp [requiredStringBad] at h

/-- An accepted create: both required fields pass and no record of the
nation's list shares the submitted id-field value, so the handler answers
201 (the persistence write succeeding). -/
theorem genericPost_accepted (c : Category) (col : NationMap) (nation : String)
    (body : Obj)
    (hid : requiredStringBad (toVal (getF body (idFieldForCategory c))) = false)
    (hname : requiredStringBad (toVal (getF body "name")) = false)
    (hdup : ∀ i ∈ (lookupN col nation).getD [],
      strictEqF (getF i (idFieldForCategory c))
        (some (toVal (getF body (idFieldForCategory c)))) = false) :
    (genericPost c col nation body true).status = 201 := by
  unfold genericPost
  cases hcol : lookupN col nation with
  | some items =>
      have hany : (items.any (fun i => strictEqF (getF i (idFieldForCategory c))
          (some (toVal (getF body (idFieldForCategory c)))))) = false := by
        rw [List.any_eq_false]
        intro i hi
        rw [Bool.not_eq_true]
        exact hdup i (by rw [hcol]; exact hi)
      simp [hcol, hid, hname, hany]
  | none =>
      have hinit : lookupN (setN col nation []) nation = some [] := by
        rw [lookupN_setN, if_pos rfl]
      simp [hcol, hinit, hid, hname]

/-- A mutating create touches no other nation key of the collection. -/
theorem genericPost_state_other (c : Category) (col : NationMap)
    (nation : String) (body : Obj) (saveOk : Bool) (n' : String)
    (h : nation ≠ n') :
    lookupN (genericPost c col nation body saveOk).state n' = lookupN col n' := by
  unfold genericPost
  cases hcol : lookupN col nation <;>
    simp only [hcol] <;> split_ifs <;> simp [lookupN_setN, h]

/-- C5: within one nation a second create with an already-present id-field
value answers 409 and leaves the collection untouched, while the same
id-field value is accepted into two different nations, one after the
other. -/
theorem c5_idfield_unique_per_nation :
    (∀ (c : Category) (col : NationMap) (nation : String) (body : Obj)
        (items : List Obj) (i : Obj) (saveOk : Bool),
      lookupN col nation = some items →
      requiredStringBad (toVal (getF body (idFieldForCategory c))) = false →
      requiredStringBad (toVal (getF body "name")) = false →
      i ∈ items →
      getF i (idFieldForCategory c) = getF body (idFieldForCategory c) →
      genericPost c col nation body saveOk = ⟨409, none, [], col⟩) ∧
    (∀ (c : Category) (col : NationMap) (n1 n2 : String) (body : Obj),
      n1 ≠ n2 →
      requiredStringBad (toVal (getF body (idFieldForCategory c))) = false →
      requiredStringBad (toVal (getF body "name")) = false →
      (∀ i ∈ (lookupN col n1).getD [],
        strictEqF (getF i (idFieldForCategory c))
          (some (toVal (getF body (idFieldForCategory c)))) = false) →
      (∀ i ∈ (lookupN col n2).getD [],
        strictEqF (getF i (idFieldForCategory c))
          (some (toVal (getF body (idFieldForCategory c)))) = false) →
      (genericPost c col n1 body true).status = 201 ∧
      (genericPost c (genericPost c col n1 body true).state n2 body true).status = 201) := by
  constructor
  · intro c col nation body items i saveOk hcol hid hname hmem heq
    have hne : toVal (getF body (idFieldForCategory c)) ≠ .nan :=
      requiredStringBad_ne_nan hid
    have hpred : strictEqF (getF i (idFieldForCategory c))
        (some (toVal (getF body (idFieldForCategory c)))) = true := by
      unfold strictEqF
      rw [toVal_some, heq]
      exact strictEq_self _ hne
    have hany : (items.any (fun j => strictEqF (getF j (idFieldForCategory c))
        (some (toVal (getF body (idFieldForCategory c)))))) = true :=
      List.any_eq_true.mpr ⟨i, hmem, hpred⟩
    unfold genericPost
    simp [hcol, hid, hname, hany]
  · intro c col n1 n2 body hne hid hname hdup1 hdup2
    refine ⟨genericPost_accepted c col n1 body hid hname hdup1, ?_⟩
    refine genericPost_accepted c _ n2 body hid hname ?_
    rw [genericPost_state_other c col n1 body true n2 hne]
    exact hdup2

/-- Concrete instantiation of C5: a duplicate `aircraftid "a"` in `usa`
answers 409 with the state unchanged, and the same body is accepted into
two fresh nations in sequence. -/
theorem c5_idfield_unique_per_nation_witness :
    genericPost .aircraft colU "usa"
      [("aircraftid", .str "a"), ("name", .str "y")] true = ⟨409, none, [], colU⟩ ∧
    ((genericPost .aircraft colU "fra" okBody true).status = 201 ∧
      (genericPost .aircraft (genericPost .aircraft colU "fra" okBody true).state
        "ger" okBody true).status = 201) :=
  ⟨c5_idfield_unique_per_nation.1 .aircraft colU "usa"
      [("aircraftid", .str "a"), ("name", .str "y")] [obj3] obj3 true
      (by decide) (by decide) (by decide) (by decide) (by decide),
    c5_idfield_unique_per_nation.2 .aircraft colU "fra" "ger" okBody
      (by decide) (by decide) (by decide) (by decide) (by decide)⟩

/-- C7: listing a category by nation answers 404 with the list of nations
that do have data when the nation key is absent, and a valid empty 200
result (zero records) when the key is present with an empty list. -/
theorem c7_list_by_nation (col : NationMap) (nation : String) :
    (lookupN col nation = none →
      genericGetByNation col nation = ⟨404, none, none, some (keysOf col)⟩) ∧
    (lookupN col nation = some [] →
      genericGetByNation col nation = ⟨200, some 0, some [], none⟩) := by
  constructor <;> intro h <;> simp [genericGetByNation, h]

/-- Concrete instantiation of C7 at an unknown nation and at an
initialized-but-empty nation. -/
theorem c7_list_by_nation_witness :
    genericGetByNation colU "atlantis" = ⟨404, none, none, some (keysOf colU)⟩ ∧
    genericGetByNation [("usa", [])] "usa" = ⟨200, some 0, some [], none⟩ :=
  ⟨(c7_list_by_nation colU "atlantis").1 (by decide),
    (c7_list_by_nation [("usa", [])] "usa").2 (by decide)⟩

/-- C10: a create aimed at a nation key absent from a loaded collection
first initializes that key to an empty list; when the save then fails, the
rollback only pops the appended record, so the key stays present with an
empty list, and a subsequent list-by-nation answers an empty 200 instead
of 404. -/
theorem c10_failed_create_keeps_initialized_nation (c : Category)
    (col : NationMap) (nation : String) (body : Obj)
    (habs : lookupN col nation = none)
    (hid : requiredStringBad (toVal (getF body (idFieldForCategory c))) = false)
    (hname : requiredStringBad (toVal (getF body "name")) = false) :
    genericPost c col nation body false = ⟨500, none, [], setN col nation []⟩ ∧
    lookupN (setN col nation []) nation = some [] ∧
    genericGetByNation (setN col nation []) nation = ⟨200, some 0, some [], none⟩ := by
  have hinit : lookupN (setN col nation []) nation = some [] := by
    rw [lookupN_setN, if_pos rfl]
  refine ⟨?_, hinit, by simp [genericGetByNation, hinit]⟩
  unfold genericPost
  simp [habs, hinit, hid, hname, setN_setN]

/-- Concrete instantiation of C10: a failed create into the fresh nation
`fra` leaves `fra` present and empty, served as an empty 200. -/
theorem c10_failed_create_keeps_initialized_nation_witness :
    genericPost .aircraft colU "fra" okBody false =
      ⟨500, none, [], setN colU "fra" []⟩ ∧
    lookupN (setN colU "fra" []) "fra" = some [] ∧
    genericGetByNation (setN colU "fra" []) "fra" = ⟨200, some 0, some [], none⟩ :=
  c10_failed_create_keeps_initialized_nation .aircraft colU "fra" okBody
    (by decide) (by decide) (by decide)

/-- C8: for a nonempty nation list whose records all carry numeric ids,
the freshly computed id is one plus the list's maximum id (every existing
id is strictly below it, and the record holding the maximum witnesses the
"plus one"); an absent or empty nation list yields id 1; and an accepted
create whose body does not itself send `id` stores exactly this fresh
value on the new record. -/
theorem c8_fresh_id :
    (∀ (col : NationMap) (nation : String) (items : List Obj),
      lookupN col nation = some items → items ≠ [] →
      (∀ i ∈ items, ∃ q : ℚ, getF i "id" = some (.num q)) →
      ((∀ i ∈ items, ∀ q : ℚ, getF i "id" = some (.num q) →
          q + 1 ≤ getNextId col nation) ∧
        (∃ i ∈ items, getF i "id" = some (.num (getNextId col nation - 1))))) ∧
    (∀ (col : NationMap) (nation : String),
      lookupN col nation = none ∨ lookupN col nation = some [] →
      getNextId col nation = 1) ∧
    (∀ (c : Category) (col : NationMap) (nation : String) (body : Obj)
        (r : Obj) (saveOk : Bool),
      "id" ∉ body.map Prod.fst →
      (genericPost c col nation body saveOk).body = some r →
      getF r "id" = some (.num (getNextId col nation))) := by
  refine ⟨?_, ?_, ?_⟩
  · intro col nation items hcol hne hnum
    have hnext : getNextId col nation = maxList (items.map idOrZero) + 1 := by
      unfold getNextId
      rw [hcol]
      cases items with
      | nil => exact absurd rfl hne
      | cons x xs => rfl
    constructor
    · intro i hi q hq
      have hiz : idOrZero i = q := by simp [idOrZero, hq, toVal]
      have hle : q ≤ maxList (items.map idOrZero) := by
        rw [← hiz]
        exact maxList_le_of_mem (List.mem_map_of_mem _ hi)
      rw [hnext]
      linarith
    · have hmm : maxList (items.map idOrZero) ∈ items.map idOrZero :=
        maxList_mem (by simpa using hne)
      obtain ⟨i, hi, hval⟩ := List.mem_map.mp hmm
      refine ⟨i, hi, ?_⟩
      obtain ⟨q, hq⟩ := hnum i hi
      have hiz : idOrZero i = q := by simp [idOrZero, hq, toVal]
      rw [hq, hnext]
      have : maxList (items.map idOrZero) + 1 - 1 = q := by
        rw [add_sub_cancel_right, ← hval, hiz]
      rw [this]
  · intro col nation h
    rcases h with h | h <;> simp [getNextId, h]
  · intro c col nation body r saveOk hnid hbody
    have hbase : getF (mergeObj
        [("id", .num (getNextId col nation)), ("nation", .str nation)] body) "id" =
        some (.num (getNextId col nation)) := by
      rw [getF_mergeObj_not_key body _ _ hnid]
      rfl
    by_cases hreq : requiredStringBad (toVal (getF body (idFieldForCategory c))) = true ∨
        requiredStringBad (toVal (getF body "name")) = true
    · have hnone : (genericPost c col nation body saveOk).body = none := by
        unfold genericPost
        cases hcol : lookupN col nation <;> simp [hreq]
      rw [hnone] at hbody
      exact absurd hbody (by simp)
    · cases hcol : lookupN col nation with
      | some items =>
          by_cases hdup : (items.any fun i => strictEqF (getF i (idFieldForCategory c))
              (some (toVal (getF body (idFieldForCategory c))))) = true
          · have hnone : (genericPost c col nation body saveOk).body = none := by
              unfold genericPost
              simp [hcol, hreq, hdup]
            rw [hnone] at hbody
            exact absurd hbody (by simp)
          · cases saveOk with
            | false =>
                have hnone : (genericPost c col nation body false).body = none := by
                  unfold genericPost
                  simp [hcol, hreq, hdup]
                rw [hnone] at hbody
                exact absurd hbody (by simp)
            | true =>
                have hb : (genericPost c col nation body true).body =
                    some (mergeObj [("id", .num (getNextId col nation)),
                      ("nation", .str nation)] body) := by
                  unfold genericPost
                  simp [hcol, hreq, hdup]
                rw [hb] at hbody
                simp only [Option.some.injEq] at hbody
                subst hbody
                exact hbase
      | none =>
          have hinit : lookupN (setN col nation []) nation = some [] := by
            rw [lookupN_setN, if_pos rfl]
          have hnext1 : getNextId (setN col nation []) nation = 1 := by
            simp [getNextId, hinit]
          have hnext0 : getNextId col nation = 1 := by
            simp [getNextId, hcol]
          cases saveOk with
          | false =>
              have hnone : (genericPost c col nation body false).body = none := by
                unfold genericPost
                simp [hcol, hinit, hreq]
              rw [hnone] at hbody
              exact absurd hbody (by simp)
          | true =>
              have hb : (genericPost c col nation body true).body =
                  some (mergeObj [("id", .num (getNextId (setN col nation []) nation)),
                    ("nation", .str nation)] body) := by
                unfold genericPost
                simp [hcol, hinit, hreq]
              rw [hb] at hbody
              simp only [Option.some.injEq] at hbody
              subst hbody
              rw [getF_mergeObj_not_key body _ _ hnid]
              simp [getF, hnext1, hnext0]

/-- Concrete instantiation of C8: over `colU` (max id 3) the fresh id is
bounded below by every existing id plus one, witnessed at id 3, and an
accepted create stores id 4. -/
theorem c8_fresh_id_witness :
    (∀ i ∈ [obj3], ∀ q : ℚ, getF i "id" = some (.num q) →
      q + 1 ≤ getNextId colU "usa") ∧
    (∃ i ∈ [obj3], getF i "id" = some (.num (getNextId colU "usa" - 1))) ∧
    getNextId [("usa", [])] "usa" = 1 ∧
    getF (mergeObj [("id", .num (getNextId colU "usa")), ("nation", .str "usa")]
        okBody) "id" = some (.num (getNextId colU "usa")) := by
  have h1 := c8_fresh_id.1 colU "usa" [obj3] (by decide) (by decide)
    (by
      intro i hi
      rw [List.mem_singleton] at hi
      subst hi
      exact ⟨3, by decide⟩)
  have h2 := c8_fresh_id.2.1 [("usa", [])] "usa" (Or.inr (by decide))
  have h3 := c8_fresh_id.2.2 .aircraft colU "usa" okBody
    (mergeObj [("id", .num (getNextId colU "usa")), ("nation", .str "usa")] okBody)
    true (by decide) rfl
  exact ⟨h1.1, h1.2, h2, h3⟩

theorem flatten_chunks (l : List Obj) (m : Nat) (k : Nat) :
    ((List.range k).map (fun j => (l.drop (j * m)).take m)).flatten = l.take (k * m) := by
  induction k with
  | zero => simp
  | succ k ih =>
      rw [List.range_succ, List.map_append, List.flatten_append, ih]
      simp only [List.map_cons, List.map_nil, List.flatten_cons, List.flatten_nil,
        List.append_nil]
      rw [Nat.succ_mul, List.take_add]

theorem one_le_effLimit (lq : Option String) : 1 ≤ effLimit lq :=
  le_min (by norm_num) (le_max_left 1 _)

/-- C9: the effective page floors at 1 and the effective limit is clamped
into 1..100; the served slice is the `(page-1)*limit` window of the
filtered list, its length never exceeds the limit, and concatenating the
slices of pages 1,2,…,k (any k covering the list) reconstructs the
filtered list exactly. -/
theorem c9_pagination (c : Category) (col : NationMap) (q pq lq : Option String) :
    1 ≤ effPage pq ∧
    1 ≤ effLimit lq ∧ effLimit lq ≤ 100 ∧
    (listCategory c col q pq lq).items =
      pageSlice (filteredItems c col q) (effPage pq) (effLimit lq) ∧
    ((listCategory c col q pq lq).items).length ≤ (effLimit lq).toNat ∧
    ∀ k : Nat, (filteredItems c col q).length ≤ k * (effLimit lq).toNat →
      ((List.range k).map (fun (j : Nat) => pageSlice (filteredItems c col q)
        (((j : Int)) + 1) (effLimit lq))).flatten = filteredItems c col q := by
  refine ⟨le_max_left 1 _, one_le_effLimit lq, min_le_left _ _, rfl, ?_, ?_⟩
  · exact le_trans (List.length_take_le _ _) (le_refl _)
  · intro k hk
    have hl : (0 : Int) ≤ effLimit lq := le_trans zero_le_one (one_le_effLimit lq)
    have hconv : ∀ j : Nat,
        pageSlice (filteredItems c col q) ((j : Int) + 1) (effLimit lq) =
          ((filteredItems c col q).drop (j * (effLimit lq).toNat)).take
            (effLimit lq).toNat := by
      intro j
      unfold pageSlice
      have h1 : ((j : Int) + 1 - 1) = (j : Int) := add_sub_cancel_right _ _
      have h2 : ((j : Int) * effLimit lq).toNat = j * (effLimit lq).toNat := by
        rw [← Int.toNat_of_nonneg hl]
        rw [show ((j : Int) * ((effLimit lq).toNat : Int)) =
          ((j * (effLimit lq).toNat : Nat) : Int) by push_cast; ring]
        rw [Int.toNat_natCast, Int.toNat_natCast]
      rw [h1, h2]
    have hmap : (List.range k).map (fun (j : Nat) => pageSlice (filteredItems c col q)
        (((j : Int)) + 1) (effLimit lq)) =
        (List.range k).map (fun j => ((filteredItems c col q).drop
          (j * (effLimit lq).toNat)).take (effLimit lq).toNat) :=
      List.map_congr_left (fun j _ => hconv j)
    rw [hmap, flatten_chunks]
    exact List.take_of_length_le hk

/-- Concrete instantiation of C9: with `limit=1` the single page of the
one-record collection reconstructs the filtered list. -/
theorem c9_pagination_witness :
    ((List.range 1).map (fun (j : Nat) => pageSlice (filteredItems .aircraft colU none)
      (((j : Int)) + 1) (effLimit (some "1")))).flatten =
      filteredItems .aircraft colU none :=
  (c9_pagination .aircraft colU none none (some "1")).2.2.2.2.2 1 (by decide)

end WTApi
